import Mathlib

/-!
Verification development for the liberalitas-EDH inscription dashboard
(`src/main.py`).  The pipeline logic of the script is embedded shallowly:

* a CSV row (`Row`) keeps the columns the script reads; a pandas `NaN`
  cell is `none`, a present cell `some s`;
* `load_data` is the gap repair of rows 29 and 67 (main.py lines 27-34);
* `is_women_inscription` is the classifier (lines 62-97);
* `mapEntry?` / `mapData` is the coordinate-parsing loop building the
  map data (lines 152-175);
* `transcriptionsTable` / `transcriptions_to_show` are the transcription
  listing and its search (lines 291-310); pandas
  `Series.str.contains(pat, case=False, na=False)` interprets `pat` as a
  regular expression (`re.search` with `re.IGNORECASE`), embedded here for
  the fragment of patterns made of literal characters and the
  metacharacter dot;
* `locationData` / `location_counts` are the location frequency data
  (lines 133-144 and 236-240).

Python string helpers (`strip`, `lower`, `split`, substring `in`) are
embedded over `List Char`; `lower` is the ASCII fragment, which covers
every string constant of the script.
-/

namespace LiberalitasEDH

/-- One parsed CSV row.  Each field models one column the script reads;
`none` models a pandas `NaN` cell, `some s` a present string cell. -/
structure Row where
  hdNo : Option String
  transcription : Option String
  modernFindSpot : Option String
  ancientFindSpot : Option String
  country : Option String
  province : Option String
  coordinates : Option String
deriving DecidableEq, Repr

/-- Characters Python's `str.strip()` removes (ASCII whitespace). -/
def pyIsSpace (c : Char) : Bool :=
  c = ' ' || c = '\t' || c = '\n' || c = '\r' || c = '\x0b' || c = '\x0c'

/-- Python `str.strip()` over a character list. -/
def pyStripL (l : List Char) : List Char :=
  ((l.dropWhile pyIsSpace).reverse.dropWhile pyIsSpace).reverse

/-- Python `str.strip()`. -/
def pyStrip (s : String) : String :=
  ⟨pyStripL s.data⟩

/-- Split a character list at every separator character (Python
`str.split(sep)` semantics: empty chunks are kept). -/
def splitRuns (p : Char → Bool) : List Char → List (List Char)
  | [] => [[]]
  | c :: rest =>
    let r := splitRuns p rest
    if p c then [] :: r
    else
      match r with
      | [] => [[c]]
      | h :: t => (c :: h) :: t

/-- Python `str.split(",")`. -/
def splitComma (l : List Char) : List (List Char) :=
  splitRuns (fun c => c = ',') l

/-- Python `str.split()` with no argument: split on whitespace runs,
discarding empty chunks. -/
def pySplitWs (l : List Char) : List (List Char) :=
  (splitRuns pyIsSpace l).filter (fun chunk => chunk ≠ [])

/-- Does `needle` occur at the start of `hay`? -/
def startsWithL : List Char → List Char → Bool
  | [], _ => true
  | _ :: _, [] => false
  | a :: as, b :: bs => a = b && startsWithL as bs

/-- Python substring containment `needle in hay` (case-sensitive). -/
def containsSub : List Char → List Char → Bool
  | [], needle => needle.isEmpty
  | h :: t, needle => startsWithL needle (h :: t) || containsSub t needle

/-- Python `str.lower()` (ASCII fragment). -/
def lowerL (l : List Char) : List Char :=
  l.map Char.toLower

/-- Python `str(x)` applied to a cell: a present string is unchanged and a
pandas `NaN` (a float) prints as the three-letter string nan. -/
def pyStrOpt (o : Option String) : String :=
  o.getD "nan"

/-- Does the optional cell hold a value that is neither missing nor the
empty string?  This is the negation of the script's repair guard
`pd.isna(x) or x == ''`. -/
def hasValue (o : Option String) : Bool :=
  match o with
  | none => false
  | some s => decide (s ≠ "")

/-- Gap repair of a single configured row (main.py lines 29-32): if row
`i` exists and its modern find spot is `NaN` or the empty string, the
ancient find spot cell is copied into it in place. -/
def repairAt (i : Nat) (df : List Row) : List Row :=
  match df[i]? with
  | none => df
  | some r =>
    if r.modernFindSpot = none ∨ r.modernFindSpot = some "" then
      df.set i { r with modernFindSpot := r.ancientFindSpot }
    else df

/-- load_data (main.py lines 21-37): parse the CSV (the parsed rows are
the input here) and repair the modern find spot of rows 29 and 67, in
that order.  No row is dropped. -/
def load_data (df : List Row) : List Row :=
  repairAt 67 (repairAt 29 df)

/-- get_women_inscriptions (main.py lines 41-60): the fixed catalog
reference list. -/
def get_women_inscriptions : List String :=
  ["CILA 03-01", "CIL VIII 937", "CIL VIII 1223", "CIL VIII 1495",
   "CIL VIII 5142", "CIL VIII 5365", "CIL VIII 5366", "CIL VIII 10523",
   "CIL VIII 12058", "CIL VIII 26273", "IL Alg 02-03 10120", "IL Afr 511",
   "CIL X 6529", "AE 1955-151"]

/-- women_indicators (main.py lines 76-91): the fixed list of
name-phrases, all lowercase. -/
def women_indicators : List String :=
  ["corneliae marullinae", "armenia auge", "bebenia pauliana", "surdinae",
   "asiciae victoriae", "iulia victoria", "anniae aeliae",
   "bultiae hortensiae", "clodia macrina", "valeriae marianillae",
   "clodia donata", "seiae potitiae", "tutiae", "vivia severa"]

/-- The per-reference test of the classifier's first matcher (main.py
line 69): the whole reference, or any whitespace-separated part of it
longer than three characters, occurs (case-sensitively) in
`str(transcription)`. -/
def refMatch (tstr : String) (ref : String) : Bool :=
  containsSub tstr.data ref.data ||
    (pySplitWs ref.data).any
      (fun part => decide (part.length > 3) && containsSub tstr.data part)

/-- The classifier's second matcher (main.py lines 73-95): lowercase the
transcription and look for any of the fixed name-phrases; skipped when
the transcription cell is `NaN`. -/
def phraseMatch (t : String) : Bool :=
  women_indicators.any (fun ind => containsSub (lowerL t.data) ind.data)

/-- is_women_inscription (main.py lines 62-97).  The `hd_no` argument is
received but never read by the body: only the transcription is tested,
first against the catalog references (case-sensitively, on
`str(transcription)`), then against the lowercase name-phrases (only when
the transcription is not `NaN`). -/
def is_women_inscription (hd_no : Option String)
    (transcription : Option String) : Bool :=
  get_women_inscriptions.any (refMatch (pyStrOpt transcription)) ||
    (match transcription with
     | some t => phraseMatch t
     | none => false)

/-- All-digit check for one side of a decimal literal. -/
def allDigits (l : List Char) : Bool :=
  l.all (fun c => '0' ≤ c && c ≤ '9')

/-- Numeric value of a digit string. -/
def digitsVal (l : List Char) : Nat :=
  l.foldl (fun n c => n * 10 + (c.toNat - 48)) 0

/-- Unsigned decimal literal: digits with an optional fractional part
(one of the two sides may be empty, not both). -/
def parseUnsigned? (l : List Char) : Option ℚ :=
  match splitRuns (fun c => c = '.') l with
  | [ip] =>
    if ip ≠ [] && allDigits ip then some (digitsVal ip) else none
  | [ip, fp] =>
    if (ip ≠ [] || fp ≠ []) && allDigits ip && allDigits fp then
      some ((digitsVal ip : ℚ) + (digitsVal fp : ℚ) / 10 ^ fp.length)
    else none
  | _ => none

/-- Python `float(x)` on the decimal fragment used by the coordinate
column: optional sign, then digits with an optional fractional part.
(The exponent and special forms of `float` never occur in coordinate
strings and are outside the modelled fragment.) -/
def parseDecimal? (l : List Char) : Option ℚ :=
  match l with
  | '+' :: rest => parseUnsigned? rest
  | '-' :: rest => (parseUnsigned? rest).map (fun q => -q)
  | _ => parseUnsigned? l

/-- Coordinate-text parsing of the map loop (main.py lines 158-159):
split on the comma into exactly two parts, strip each, parse each as a
number; any failure raises and is swallowed by the bare `except`. -/
def parseCoords? (c : String) : Option (ℚ × ℚ) :=
  match splitComma c.data with
  | [a, b] =>
    match parseDecimal? (pyStripL a), parseDecimal? (pyStripL b) with
    | some la, some lb => some (la, lb)
    | _, _ => none
  | _ => none

/-- One point of the map data (the dict built at main.py lines 164-173). -/
structure MapEntry where
  latitude : ℚ
  longitude : ℚ
  location : Option String
  ancient_location : Option String
  country : Option String
  transcription : String
  is_women : Bool
  category : String
deriving DecidableEq, Repr

/-- The transcription preview of a map entry (main.py line 170):
`str(...)` truncated to 100 characters with a three-dot suffix. -/
def truncate100 (t : String) : String :=
  if t.length > 100 then t.take 100 ++ "..." else t

/-- The body of the map-data loop for one row (main.py lines 153-175):
skip rows whose coordinate cell is `NaN` or empty or fails to parse;
otherwise build the map point.  The loop contains no geocoding call of
any kind: on parse failure the bare `except` branch executes `continue`. -/
def mapEntry? (r : Row) : Option MapEntry :=
  match r.coordinates with
  | none => none
  | some c =>
    if c = "" then none
    else
      match parseCoords? c with
      | none => none
      | some (la, lb) =>
        let w := is_women_inscription r.hdNo r.transcription
        some { latitude := la, longitude := lb,
               location := r.modernFindSpot,
               ancient_location := r.ancientFindSpot,
               country := r.country,
               transcription := truncate100 (pyStrOpt r.transcription),
               is_women := w,
               category := if w then "Women-related Liberalitas"
                           else "General Liberalitas" }

/-- map_data (main.py lines 152-175): the map points of all rows whose
coordinates parse. -/
def mapData (df : List Row) : List MapEntry :=
  df.filterMap mapEntry?

/-- The geocoding lookups issued while building the map data.  main.py
performs no geocoding anywhere: no geocoding library is imported and the
map loop's failure branch is a bare `except: continue`, so the sequence
of lookups is empty for every input. -/
def mapGeocodeLookups (_df : List Row) : List String :=
  []

/-- Keep-predicate of the transcriptions table (main.py lines 295-296):
the transcription cell is present (`dropna`) and non-blank after
stripping. -/
def transcriptionKeep (r : Row) : Bool :=
  match r.transcription with
  | none => false
  | some t => decide (pyStripL t.data ≠ [])

/-- The transcriptions table (main.py lines 291-296): the rows whose
transcription is present and non-blank, in original order. -/
def transcriptionsTable (df : List Row) : List Row :=
  df.filter transcriptionKeep

/-- Character-level step of `re.search` with `re.IGNORECASE` for the
fragment of patterns made of literal characters and the dot: the dot
matches any character except a newline; a literal pattern character
matches up to case. -/
def reCharMatch (p c : Char) : Bool :=
  if p = '.' then decide (c ≠ '\n') else decide (p.toLower = c.toLower)

/-- Does the pattern match a prefix of the text? -/
def reMatchHere : List Char → List Char → Bool
  | [], _ => true
  | _ :: _, [] => false
  | p :: ps, c :: cs => reCharMatch p c && reMatchHere ps cs

/-- Python `re.search`: does the pattern match at some position of the text?
(An empty pattern matches everywhere, also in the empty text.) -/
def reSearchL (p : List Char) : List Char → Bool
  | [] => reMatchHere p []
  | c :: cs => reMatchHere p (c :: cs) || reSearchL p cs

/-- pandas `Series.str.contains(pat, case=False, na=False)` applied to
one transcription cell (main.py lines 304-306): a `NaN` cell gives
`False` (`na=False`); otherwise the pattern is searched for as a
case-insensitive regular expression. -/
def searchPred (pat : String) (r : Row) : Bool :=
  match r.transcription with
  | none => false
  | some s => reSearchL pat.data s.data

/-- The transcription search of tab 2 (main.py lines 301-310): an empty
search box (falsy in Python) shows the whole table; otherwise the table
is filtered by the case-insensitive regular-expression containment. -/
def transcriptions_to_show (term : String) (rows : List Row) : List Row :=
  if term = "" then rows else rows.filter (searchPred term)

/-- The location label of one row (main.py lines 134-144): rows whose
modern find spot is `NaN` or blank contribute nothing; a present,
non-blank country is appended in parentheses. -/
def locDisplay (r : Row) : Option String :=
  match r.modernFindSpot with
  | none => none
  | some m =>
    if pyStrip m = "" then none
    else
      match r.country with
      | some c =>
        if pyStrip c = "" then some m
        else some (m ++ " (" ++ c ++ ")")
      | none => some m

/-- location_data (main.py lines 133-144): the list of location labels. -/
def locationData (df : List Row) : List String :=
  df.filterMap locDisplay

/-- location_counts (main.py line 236): `Counter(location_data)`, one
`(label, multiplicity)` pair per distinct label. -/
def location_counts (df : List Row) : List (String × Nat) :=
  ((locationData df).dedup).map (fun s => (s, (locationData df).count s))

theorem length_repairAt (i : Nat) (df : List Row) :
    (repairAt i df).length = df.length := by
  unfold repairAt
  split
  · rfl
  · split
    · simp
    · rfl

theorem getElem?_repairAt_ne (i j : Nat) (df : List Row) (h : j ≠ i) :
    (repairAt i df)[j]? = df[j]? := by
  unfold repairAt
  split
  · rfl
  · split
    · exact List.getElem?_set_ne (Ne.symm h)
    · rfl

theorem getElem?_repairAt_self (i : Nat) (df : List Row) (r : Row)
    (hr : df[i]? = some r) :
    (repairAt i df)[i]? =
      some (if r.modernFindSpot = none ∨ r.modernFindSpot = some ""
            then { r with modernFindSpot := r.ancientFindSpot } else r) := by
  unfold repairAt
  rw [hr]
  dsimp only
  by_cases hc : r.modernFindSpot = none ∨ r.modernFindSpot = some ""
  · rw [if_pos hc, if_pos hc, List.getElem?_set_self']
    rw [hr]
    rfl
  · rw [if_neg hc, if_neg hc]
    exact hr

theorem length_load_data (df : List Row) :
    (load_data df).length = df.length := by
  unfold load_data
  rw [length_repairAt, length_repairAt]

theorem hasValue_false_iff (o : Option String) :
    hasValue o = false ↔ (o = none ∨ o = some "") := by
  cases o with
  | none => simp [hasValue]
  | some s => simp [hasValue]

/-- C1: for every input DataFrame and each configured repair row index
(29 and 67), if the DataFrame has a row at that index whose modern find
spot is `NaN` or the empty string while its ancient find spot is
non-empty, then after `load_data` the row's modern find spot equals the
source row's original ancient find spot value. -/
theorem gap_repair_copies_fallback (df : List Row) (i : Nat) (r : Row)
    (hi : i = 29 ∨ i = 67) (hr : df[i]? = some r)
    (hm : r.modernFindSpot = none ∨ r.modernFindSpot = some "")
    (ha : ∃ s, r.ancientFindSpot = some s ∧ s ≠ "") :
    ∃ r', (load_data df)[i]? = some r' ∧
      r'.modernFindSpot = r.ancientFindSpot := by
  rcases hi with rfl | rfl
  · refine ⟨{ r with modernFindSpot := r.ancientFindSpot }, ?_, rfl⟩
    unfold load_data
    rw [getElem?_repairAt_ne 67 29 _ (by omega),
      getElem?_repairAt_self 29 df r hr, if_pos hm]
  · refine ⟨{ r with modernFindSpot := r.ancientFindSpot }, ?_, rfl⟩
    unfold load_data
    have h29 : (repairAt 29 df)[67]? = some r := by
      rw [getElem?_repairAt_ne 29 67 df (by omega)]; exact hr
    rw [getElem?_repairAt_self 67 _ r h29, if_pos hm]

/-- Witness for C1 at a concrete 30-row DataFrame whose row 29 has an
empty modern find spot and ancient find spot Thugga. -/
theorem gap_repair_copies_fallback_witness :
    ∃ r', (load_data (List.replicate 30
        ⟨none, none, some "", some "Thugga", none, none, none⟩))[29]? =
        some r' ∧
      r'.modernFindSpot =
        (⟨none, none, some "", some "Thugga", none, none, none⟩ :
          Row).ancientFindSpot :=
  gap_repair_copies_fallback _ 29 _ (Or.inl rfl) (by decide)
    (Or.inr rfl) ⟨"Thugga", rfl, by decide⟩

/-- C2 is false as stated: the repair only touches rows 29 and 67.  In a
one-row DataFrame whose single row has an empty modern find spot and a
non-empty ancient find spot, the modern find spot is still empty after
`load_data`. -/
theorem repair_skips_unconfigured_rows_cex :
    (load_data [⟨none, none, some "", some "Roma", none, none, none⟩])[0]?
      = some ⟨none, none, some "", some "Roma", none, none, none⟩ ∧
    hasValue (some "Roma") = true ∧ hasValue (some "") = false := by
  refine ⟨?_, by decide, by decide⟩
  decide

/-- C2 amended: the invariant holds at the two configured row indices 29
and 67 (rows elsewhere are not modified): if such a row exists and at
least one of its modern/ancient find spot cells is non-empty in the
source, then after `load_data` its modern find spot is non-empty. -/
theorem modern_spot_nonempty_at_configured_rows (df : List Row) (i : Nat)
    (r : Row) (hi : i = 29 ∨ i = 67) (hr : df[i]? = some r)
    (h : hasValue r.modernFindSpot = true ∨
      hasValue r.ancientFindSpot = true) :
    ∃ r', (load_data df)[i]? = some r' ∧
      hasValue r'.modernFindSpot = true := by
  have key : ∀ dg : List Row, dg[i]? = some r →
      ∃ r', (repairAt i dg)[i]? = some r' ∧
        hasValue r'.modernFindSpot = true := by
    intro dg hg
    by_cases hc : r.modernFindSpot = none ∨ r.modernFindSpot = some ""
    · refine ⟨{ r with modernFindSpot := r.ancientFindSpot }, ?_, ?_⟩
      · rw [getElem?_repairAt_self i dg r hg, if_pos hc]
      · rcases h with h | h
        · rw [(hasValue_false_iff r.modernFindSpot).mpr hc] at h
          exact absurd h (by decide)
        · exact h
    · refine ⟨r, ?_, ?_⟩
      · rw [getElem?_repairAt_self i dg r hg, if_neg hc]
      · cases hv : hasValue r.modernFindSpot with
        | true => rfl
        | false => exact absurd ((hasValue_false_iff _).mp hv) hc
  rcases hi with rfl | rfl
  · obtain ⟨r', h1, h2⟩ := key df hr
    refine ⟨r', ?_, h2⟩
    unfold load_data
    rw [getElem?_repairAt_ne 67 29 _ (by omega)]
    exact h1
  · have h29 : (repairAt 29 df)[67]? = some r := by
      rw [getElem?_repairAt_ne 29 67 df (by omega)]; exact hr
    obtain ⟨r', h1, h2⟩ := key (repairAt 29 df) h29
    exact ⟨r', h1, h2⟩

/-- Witness for the amended C2 at a concrete 68-row DataFrame, at
configured index 67, with an empty modern and non-empty ancient find
spot. -/
theorem modern_spot_nonempty_at_configured_rows_witness :
    ∃ r', (load_data (List.replicate 68
        ⟨none, none, none, some "Thugga", none, none, none⟩))[67]? =
        some r' ∧ hasValue r'.modernFindSpot = true :=
  modern_spot_nonempty_at_configured_rows _ 67
    ⟨none, none, none, some "Thugga", none, none, none⟩ (Or.inr rfl)
    (by decide) (Or.inr (by decide))

/-- C10 (frame property of `load_data`): the number and order of rows is
preserved, rows at indices other than 29 and 67 are returned unchanged,
and at every index each field other than the modern find spot keeps its
source value. -/
theorem load_data_frame (df : List Row) (j : Nat) :
    (load_data df).length = df.length ∧
    (j ≠ 29 → j ≠ 67 → (load_data df)[j]? = df[j]?) ∧
    (∀ r r', df[j]? = some r → (load_data df)[j]? = some r' →
      r'.hdNo = r.hdNo ∧ r'.transcription = r.transcription ∧
      r'.ancientFindSpot = r.ancientFindSpot ∧ r'.country = r.country ∧
      r'.province = r.province ∧ r'.coordinates = r.coordinates) := by
  refine ⟨length_load_data df, ?_, ?_⟩
  · intro h29 h67
    unfold load_data
    rw [getElem?_repairAt_ne 67 j _ h67, getElem?_repairAt_ne 29 j _ h29]
  · intro r r' hr hr'
    by_cases h29 : j = 29
    · subst h29
      rw [load_data, getElem?_repairAt_ne 67 29 _ (by omega),
        getElem?_repairAt_self 29 df r hr] at hr'
      have := Option.some.inj hr'
      subst this
      split
      · exact ⟨rfl, rfl, rfl, rfl, rfl, rfl⟩
      · exact ⟨rfl, rfl, rfl, rfl, rfl, rfl⟩
    by_cases h67 : j = 67
    · subst h67
      have hmid : (repairAt 29 df)[67]? = some r := by
        rw [getElem?_repairAt_ne 29 67 df (by omega)]; exact hr
      rw [load_data, getElem?_repairAt_self 67 _ r hmid] at hr'
      have := Option.some.inj hr'
      subst this
      split
      · exact ⟨rfl, rfl, rfl, rfl, rfl, rfl⟩
      · exact ⟨rfl, rfl, rfl, rfl, rfl, rfl⟩
    · rw [load_data, getElem?_repairAt_ne 67 j _ h67,
        getElem?_repairAt_ne 29 j _ h29, hr] at hr'
      have := Option.some.inj hr'
      subst this
      exact ⟨rfl, rfl, rfl, rfl, rfl, rfl⟩

/-- Witness for C10 at a concrete two-row DataFrame and index 1, with
the implications of the statement discharged there. -/
theorem load_data_frame_witness :
    (load_data [⟨none, some "t", some "Roma", none, none, none, none⟩,
      ⟨some "HD1", none, none, some "Thugga", none, none, some "1,2"⟩]
      ).length = 2 ∧
    (load_data [⟨none, some "t", some "Roma", none, none, none, none⟩,
      ⟨some "HD1", none, none, some "Thugga", none, none, some "1,2"⟩]
      )[1]? = some ⟨some "HD1", none, none, some "Thugga", none, none,
        some "1,2"⟩ := by
  have h := load_data_frame
    [⟨none, some "t", some "Roma", none, none, none, none⟩,
     ⟨some "HD1", none, none, some "Thugga", none, none, some "1,2"⟩] 1
  exact ⟨h.1, h.2.1 (by decide) (by decide)⟩

/-- C9: the classification result of `is_women_inscription` depends only
on the transcription argument; the `hd_no` parameter never influences
the result (the body never reads it). -/
theorem classifier_independent_of_hd_no (h1 h2 t : Option String) :
    is_women_inscription h1 t = is_women_inscription h2 t := rfl

/-- ASCII letter test, used to say what a pure letter-case change is. -/
def isAsciiLetter (c : Char) : Bool :=
  ('a' ≤ c && c ≤ 'z') || ('A' ≤ c && c ≤ 'Z')

/-- Two characters are equal up to letter case: identical, or both ASCII
letters with the same lowercase form. -/
def caseEqChar (a b : Char) : Bool :=
  a = b || (isAsciiLetter a && isAsciiLetter b &&
    decide (a.toLower = b.toLower))

/-- Two character lists are equal up to letter case, position by
position. -/
def caseEquivL : List Char → List Char → Bool
  | [], [] => true
  | a :: as, b :: bs => caseEqChar a b && caseEquivL as bs
  | _, _ => false

theorem caseEqChar_toLower {a b : Char} (h : caseEqChar a b = true) :
    a.toLower = b.toLower := by
  unfold caseEqChar at h
  rcases Bool.or_eq_true_iff.mp h with h | h
  · rw [of_decide_eq_true h]
  · exact of_decide_eq_true (Bool.and_eq_true_iff.mp h).2

theorem isAsciiLetter_ne_newline {a : Char} (h : isAsciiLetter a = true) :
    a ≠ '\n' := by
  intro ha
  subst ha
  exact absurd h (by decide)

theorem caseEqChar_newline {a b : Char} (h : caseEqChar a b = true) :
    a = '\n' ↔ b = '\n' := by
  unfold caseEqChar at h
  rcases Bool.or_eq_true_iff.mp h with h | h
  · rw [of_decide_eq_true h]
  · obtain ⟨h1, _⟩ := Bool.and_eq_true_iff.mp (Bool.and_eq_true_iff.mp h).1
    constructor
    · intro ha; exact absurd ha (isAsciiLetter_ne_newline h1)
    · intro hb
      exact absurd hb (isAsciiLetter_ne_newline
        (Bool.and_eq_true_iff.mp (Bool.and_eq_true_iff.mp h).1).2)

theorem lowerL_of_caseEquivL : ∀ {s t : List Char},
    caseEquivL s t = true → lowerL s = lowerL t
  | [], [], _ => rfl
  | a :: as, b :: bs, h => by
    obtain ⟨h1, h2⟩ := Bool.and_eq_true_iff.mp h
    unfold lowerL
    rw [List.map_cons, List.map_cons, caseEqChar_toLower h1]
    have := lowerL_of_caseEquivL (s := as) (t := bs) h2
    unfold lowerL at this
    rw [this]

theorem reCharMatch_caseEquiv {c d : Char} (p : Char)
    (h : caseEqChar c d = true) : reCharMatch p c = reCharMatch p d := by
  unfold reCharMatch
  by_cases hp : p = '.'
  · rw [if_pos hp, if_pos hp]
    exact decide_eq_decide.mpr (not_congr (caseEqChar_newline h))
  · rw [if_neg hp, if_neg hp, caseEqChar_toLower h]

theorem reMatchHere_caseEquiv : ∀ (p : List Char) {s t : List Char},
    caseEquivL s t = true → reMatchHere p s = reMatchHere p t
  | [], _, _, _ => rfl
  | _ :: _, [], [], _ => rfl
  | _ :: _, [], _ :: _, h => by exact absurd h (by simp [caseEquivL])
  | _ :: _, _ :: _, [], h => by exact absurd h (by simp [caseEquivL])
  | p :: ps, c :: cs, d :: ds, h => by
    obtain ⟨h1, h2⟩ := Bool.and_eq_true_iff.mp h
    unfold reMatchHere
    rw [reCharMatch_caseEquiv p h1, reMatchHere_caseEquiv ps h2]

theorem reSearchL_caseEquiv : ∀ (p : List Char) {s t : List Char},
    caseEquivL s t = true → reSearchL p s = reSearchL p t
  | _, [], [], _ => rfl
  | _, [], _ :: _, h => by exact absurd h (by simp [caseEquivL])
  | _, _ :: _, [], h => by exact absurd h (by simp [caseEquivL])
  | p, c :: cs, d :: ds, h => by
    obtain ⟨h1, h2⟩ := Bool.and_eq_true_iff.mp h
    unfold reSearchL
    rw [reMatchHere_caseEquiv p h, reSearchL_caseEquiv p h2]

/-- C8 is false as stated: the catalog-reference matcher of
`is_women_inscription` is case-sensitive.  The transcriptions CILA and
cila differ only in letter case, yet the first is classified as
women-related (the part CILA of the reference CILA 03-01 occurs in it)
and the second is not. -/
theorem classifier_case_sensitive_cex :
    caseEquivL "CILA".data "cila".data = true ∧
    is_women_inscription none (some "CILA") = true ∧
    is_women_inscription none (some "cila") = false := by
  exact ⟨by decide, by decide, by decide⟩

/-- C8 amended: the transcription search (the regular-expression matcher
of `Series.str.contains` with `case=False`) and the name-phrase matcher
of `is_women_inscription` are case-insensitive — both give the same
result on transcriptions that differ only in letter case — but the
catalog-reference matcher of `is_women_inscription` is case-sensitive,
so the classifier as a whole is not. -/
theorem search_and_phrase_match_case_insensitive (p t₁ t₂ : String)
    (h : caseEquivL t₁.data t₂.data = true) :
    reSearchL p.data t₁.data = reSearchL p.data t₂.data ∧
    phraseMatch t₁ = phraseMatch t₂ := by
  refine ⟨reSearchL_caseEquiv p.data h, ?_⟩
  unfold phraseMatch
  rw [lowerL_of_caseEquivL h]

/-- Witness for the amended C8 on two transcriptions differing only in
case. -/
theorem search_and_phrase_match_case_insensitive_witness :
    (reSearchL "liberal".data "Corneliae Marullinae LIBERALITAS".data =
      reSearchL "liberal".data "corneliae marullinae liberalitas".data) ∧
    phraseMatch "Corneliae Marullinae LIBERALITAS" =
      phraseMatch "corneliae marullinae liberalitas" :=
  search_and_phrase_match_case_insensitive "liberal"
    "Corneliae Marullinae LIBERALITAS"
    "corneliae marullinae liberalitas" (by decide)

/-- C4: when a record's coordinate text is present and parses as
number-comma-number (with optional surrounding whitespace, which the
parse strips), the map point carries exactly the two parsed values, and
no geocoding lookup is made (the map loop issues none at all). -/
theorem coordinate_parse_authoritative (r : Row) (c : String) (la lb : ℚ)
    (hc : r.coordinates = some c) (hp : parseCoords? c = some (la, lb)) :
    (∃ e, mapEntry? r = some e ∧ e.latitude = la ∧ e.longitude = lb) ∧
    mapGeocodeLookups [r] = [] := by
  refine ⟨?_, rfl⟩
  have hne : c ≠ "" := by
    intro h
    subst h
    exact Option.noConfusion hp
  unfold mapEntry?
  rw [hc]
  dsimp only
  rw [if_neg hne, hp]
  exact ⟨_, rfl, rfl, rfl⟩

theorem parseCoords_example :
    parseCoords? " 1.5 , 2.5 " = some (3 / 2, 5 / 2) := by
  have h : parseCoords? " 1.5 , 2.5 " =
      some ((digitsVal ['1'] : ℚ) + (digitsVal ['5'] : ℚ) / 10 ^ (1 : ℕ),
        (digitsVal ['2'] : ℚ) + (digitsVal ['5'] : ℚ) / 10 ^ (1 : ℕ)) :=
    rfl
  rw [h, show digitsVal ['1'] = 1 from rfl, show digitsVal ['5'] = 5
    from rfl, show digitsVal ['2'] = 2 from rfl]
  norm_num

/-- Witness for C4 on the coordinate text 1.5 comma 2.5 with surrounding
whitespace. -/
theorem coordinate_parse_authoritative_witness :
    (∃ e, mapEntry? ⟨none, none, none, none, none, none,
        some " 1.5 , 2.5 "⟩ = some e ∧
      e.latitude = 3 / 2 ∧ e.longitude = 5 / 2) ∧
    mapGeocodeLookups [⟨none, none, none, none, none, none,
      some " 1.5 , 2.5 "⟩] = [] :=
  coordinate_parse_authoritative _ " 1.5 , 2.5 " (3 / 2) (5 / 2) rfl
    parseCoords_example

/-- C5 is false as stated: a record whose coordinate text fails to parse
does not fall through to any geocoding lookup — the map loop of main.py
geocodes nothing (its failure branch is a bare `except: continue`), so
no lookup of the record's place name Roma (or of anything else) occurs. -/
theorem no_geocoding_fallback_cex :
    parseCoords? "Carthago" = none ∧
    "Roma" ∉ mapGeocodeLookups [⟨none, some "liberalitas", some "Roma",
      none, none, none, some "Carthago"⟩] ∧
    mapEntry? ⟨none, some "liberalitas", some "Roma", none, none, none,
      some "Carthago"⟩ = none ∧
    transcriptionsTable [⟨none, some "liberalitas", some "Roma", none,
      none, none, some "Carthago"⟩] =
      [⟨none, some "liberalitas", some "Roma", none, none, none,
        some "Carthago"⟩] := by
  exact ⟨by decide, by decide, by decide, by decide⟩

/-- C5 amended: a record whose coordinate text fails to parse is merely
skipped by the map loop — no geocoding fallback exists — while the
record itself is not removed from the collection: it is excluded from
the map data but still appears in the transcriptions listing whenever
its transcription is present and non-blank. -/
theorem malformed_coords_nonfatal (df : List Row) (r : Row) (c : String)
    (hc : r.coordinates = some c) (hp : parseCoords? c = none)
    (hmem : r ∈ df) :
    mapEntry? r = none ∧ mapGeocodeLookups df = [] ∧
    (transcriptionKeep r = true → r ∈ transcriptionsTable df) := by
  refine ⟨?_, rfl, ?_⟩
  · unfold mapEntry?
    rw [hc]
    dsimp only
    by_cases he : c = ""
    · rw [if_pos he]
    · rw [if_neg he, hp]
  · intro hk
    exact List.mem_filter.mpr ⟨hmem, hk⟩

/-- Witness for the amended C5 on a one-record collection with
unparseable coordinate text. -/
theorem malformed_coords_nonfatal_witness :
    mapEntry? ⟨none, some "liberalitas", some "Roma", none, none, none,
      some "Carthago"⟩ = none ∧
    mapGeocodeLookups [⟨none, some "liberalitas", some "Roma", none, none,
      none, some "Carthago"⟩] = [] ∧
    (transcriptionKeep ⟨none, some "liberalitas", some "Roma", none, none,
        none, some "Carthago"⟩ = true →
      ⟨none, some "liberalitas", some "Roma", none, none, none,
        some "Carthago"⟩ ∈ transcriptionsTable [⟨none, some "liberalitas",
        some "Roma", none, none, none, some "Carthago"⟩]) :=
  malformed_coords_nonfatal _ _ "Carthago" rfl (by decide)
    (List.mem_singleton.mpr rfl)

/-- C3 is false as stated: nothing is dropped after Gap Repair.  A row
with no transcription at all (and no find spots) survives `load_data`
unchanged and still produces a map point from its coordinate text, so it
does appear in a Query Surface result. -/
theorem missing_transcription_not_dropped_cex :
    load_data [⟨none, none, none, none, none, none, some "1.5,2.5"⟩] =
      [⟨none, none, none, none, none, none, some "1.5,2.5"⟩] ∧
    (mapData [⟨none, none, none, none, none, none,
      some "1.5,2.5"⟩]).length = 1 := by
  exact ⟨by decide, by decide⟩

/-- C3 amended: `load_data` drops no record (the collection keeps its
length); a record whose transcription is missing or blank is excluded
from the transcriptions listing and from every transcription search
result, but it can still appear in the map data and the location counts
(as the counterexample shows). -/
theorem missing_transcription_only_hides_listing (df : List Row) (r : Row)
    (hk : transcriptionKeep r = false) :
    (load_data df).length = df.length ∧
    r ∉ transcriptionsTable df ∧
    (∀ term, r ∉ transcriptions_to_show term (transcriptionsTable df)) := by
  have htab : r ∉ transcriptionsTable df := by
    intro hmem
    have h2 := (List.mem_filter.mp hmem).2
    rw [hk] at h2
    exact Bool.noConfusion h2
  refine ⟨length_load_data df, htab, ?_⟩
  intro term hmem
  apply htab
  unfold transcriptions_to_show at hmem
  split at hmem
  · exact hmem
  · exact (List.mem_filter.mp hmem).1

/-- Witness for the amended C3 on a one-row collection whose row has no
transcription. -/
theorem missing_transcription_only_hides_listing_witness :
    (load_data [⟨none, none, none, none, none, none,
      some "1.5,2.5"⟩]).length = 1 ∧
    (⟨none, none, none, none, none, none, some "1.5,2.5"⟩ : Row) ∉
      transcriptionsTable [⟨none, none, none, none, none, none,
        some "1.5,2.5"⟩] ∧
    (⟨none, none, none, none, none, none, some "1.5,2.5"⟩ : Row) ∉
      transcriptions_to_show "liberal" (transcriptionsTable
        [⟨none, none, none, none, none, none, some "1.5,2.5"⟩]) := by
  have h := missing_transcription_only_hides_listing
    [⟨none, none, none, none, none, none, some "1.5,2.5"⟩]
    ⟨none, none, none, none, none, none, some "1.5,2.5"⟩ (by decide)
  exact ⟨h.1, h.2.1, h.2.2 "liberal"⟩

/-- Characters with no special meaning in a regular expression.  For a
pattern made only of such characters, a regular-expression search
degenerates to a substring search. -/
def plainChar (c : Char) : Bool :=
  !(['.', '^', '$', '*', '+', '?', '\x7b', '\x7d', '[', ']', '\\', '|',
     '(', ')'].contains c)

/-- Case-insensitive substring containment, following the spec's words:
does the term occur in the text when both are lowercased? -/
def specContainsCI (hay needle : String) : Bool :=
  containsSub (lowerL hay.data) (lowerL needle.data)

/-- The spec's search predicate over one row: a case-insensitive
substring filter over the transcription field (a missing transcription
matches nothing). -/
def specSearchPred (term : String) (r : Row) : Bool :=
  match r.transcription with
  | none => false
  | some s => specContainsCI s term

theorem plainChar_ne_dot {c : Char} (h : plainChar c = true) : c ≠ '.' := by
  intro hc
  subst hc
  exact absurd h (by decide)

theorem lowerL_cons (a : Char) (l : List Char) :
    lowerL (a :: l) = a.toLower :: lowerL l := rfl

theorem reMatchHere_cons (p c : Char) (ps cs : List Char) :
    reMatchHere (p :: ps) (c :: cs) =
      (reCharMatch p c && reMatchHere ps cs) := rfl

theorem startsWithL_cons (a b : Char) (as bs : List Char) :
    startsWithL (a :: as) (b :: bs) =
      (decide (a = b) && startsWithL as bs) := rfl

theorem reSearchL_cons (p : List Char) (c : Char) (cs : List Char) :
    reSearchL p (c :: cs) = (reMatchHere p (c :: cs) || reSearchL p cs) :=
  rfl

theorem containsSub_cons (h : Char) (t needle : List Char) :
    containsSub (h :: t) needle =
      (startsWithL needle (h :: t) || containsSub t needle) := rfl

theorem reMatchHere_eq_startsWith_of_plain :
    ∀ (p : List Char), (∀ c ∈ p, plainChar c = true) → ∀ (s : List Char),
      reMatchHere p s = startsWithL (lowerL p) (lowerL s)
  | [], _, s => by cases s <;> rfl
  | p :: ps, h, [] => rfl
  | p :: ps, h, c :: cs => by
    have hp : plainChar p = true := h p (List.mem_cons_self p ps)
    have hps : ∀ x ∈ ps, plainChar x = true :=
      fun x hx => h x (List.mem_cons_of_mem p hx)
    rw [reMatchHere_cons, lowerL_cons, lowerL_cons, startsWithL_cons,
      reMatchHere_eq_startsWith_of_plain ps hps cs, reCharMatch,
      if_neg (plainChar_ne_dot hp)]

theorem reSearchL_eq_containsSub_of_plain (p : List Char)
    (h : ∀ c ∈ p, plainChar c = true) :
    ∀ (s : List Char), reSearchL p s = containsSub (lowerL s) (lowerL p)
  | [] => by
    cases p with
    | nil => rfl
    | cons x xs => rfl
  | c :: cs => by
    rw [reSearchL_cons, lowerL_cons, containsSub_cons,
      reMatchHere_eq_startsWith_of_plain p h (c :: cs),
      reSearchL_eq_containsSub_of_plain p h cs, lowerL_cons]

/-- C6 is false as stated: pandas `str.contains` interprets the search
term as a regular expression, not as a plain substring.  The term l.b is
not a substring of liberalitas (in any letter case), yet searching for
it returns the record, because the dot matches the letter i. -/
theorem search_regex_not_substring_cex :
    transcriptions_to_show "l.b" [⟨none, some "liberalitas", none, none,
      none, none, none⟩] =
      [⟨none, some "liberalitas", none, none, none, none, none⟩] ∧
    specContainsCI "liberalitas" "l.b" = false := by
  exact ⟨by decide, by decide⟩

/-- C6 amended: the search with an empty term returns the collection
unchanged and the search is idempotent, as claimed; the filter is a
case-insensitive regular-expression match, which coincides with the
claimed case-insensitive substring filter exactly when the term contains
no regular-expression metacharacter. -/
theorem search_properties (term : String) (rows : List Row)
    (hplain : ∀ c ∈ term.data, plainChar c = true) :
    transcriptions_to_show "" rows = rows ∧
    (∀ t, transcriptions_to_show t (transcriptions_to_show t rows) =
      transcriptions_to_show t rows) ∧
    (term ≠ "" →
      transcriptions_to_show term rows = rows.filter (specSearchPred term)) := by
  refine ⟨rfl, ?_, ?_⟩
  · intro t
    unfold transcriptions_to_show
    by_cases ht : t = ""
    · rw [if_pos ht, if_pos ht]
    · rw [if_neg ht, if_neg ht, List.filter_filter]
      exact List.filter_congr (fun a _ => Bool.and_self _)
  · intro hne
    unfold transcriptions_to_show
    rw [if_neg hne]
    apply List.filter_congr
    intro r _
    unfold searchPred specSearchPred
    cases r.transcription with
    | none => rfl
    | some s =>
      dsimp only
      rw [reSearchL_eq_containsSub_of_plain term.data hplain s.data]
      rfl

/-- Witness for the amended C6 with the plain term liberal over a
two-row collection, one matching row (up to case) and one not. -/
theorem search_properties_witness :
    transcriptions_to_show ""
      [⟨none, some "LIBERALITAS augusti", none, none, none, none, none⟩,
       ⟨none, some "pecunia sua", none, none, none, none, none⟩] =
      [⟨none, some "LIBERALITAS augusti", none, none, none, none, none⟩,
       ⟨none, some "pecunia sua", none, none, none, none, none⟩] ∧
    transcriptions_to_show "liberal" (transcriptions_to_show "liberal"
      [⟨none, some "LIBERALITAS augusti", none, none, none, none, none⟩,
       ⟨none, some "pecunia sua", none, none, none, none, none⟩]) =
      transcriptions_to_show "liberal"
        [⟨none, some "LIBERALITAS augusti", none, none, none, none, none⟩,
         ⟨none, some "pecunia sua", none, none, none, none, none⟩] ∧
    transcriptions_to_show "liberal"
      [⟨none, some "LIBERALITAS augusti", none, none, none, none, none⟩,
       ⟨none, some "pecunia sua", none, none, none, none, none⟩] =
      ([⟨none, some "LIBERALITAS augusti", none, none, none, none, none⟩,
        ⟨none, some "pecunia sua", none, none, none, none, none⟩] :
        List Row).filter (specSearchPred "liberal") := by
  have h := search_properties "liberal"
    [⟨none, some "LIBERALITAS augusti", none, none, none, none, none⟩,
     ⟨none, some "pecunia sua", none, none, none, none, none⟩]
    (by decide)
  exact ⟨h.1, h.2.1 "liberal", h.2.2 (by decide)⟩

/-- Keep-predicate of the location data (main.py line 138): the modern
find spot cell is present and non-blank after stripping. -/
def locKeep (r : Row) : Bool :=
  match r.modernFindSpot with
  | none => false
  | some m => decide (pyStrip m ≠ "")

theorem isSome_locDisplay (r : Row) : (locDisplay r).isSome = locKeep r := by
  unfold locDisplay locKeep
  cases r.modernFindSpot with
  | none => rfl
  | some m =>
    dsimp only
    by_cases hm : pyStrip m = ""
    · rw [if_pos hm]
      simp [hm]
    · rw [if_neg hm]
      cases r.country with
      | none => simp [hm]
      | some c =>
        dsimp only
        by_cases hc : pyStrip c = ""
        · rw [if_pos hc]; simp [hm]
        · rw [if_neg hc]; simp [hm]

theorem length_filterMap_eq_length_filter {α β : Type} (f : α → Option β)
    (p : α → Bool) (hp : ∀ a, (f a).isSome = p a) :
    ∀ (l : List α), (l.filterMap f).length = (l.filter p).length
  | [] => rfl
  | a :: t => by
    rw [List.filterMap_cons, List.filter_cons]
    cases hf : f a with
    | none =>
      have h : p a = false := by rw [← hp a, hf]; rfl
      rw [h]
      show (t.filterMap f).length = _
      rw [length_filterMap_eq_length_filter f p hp t]
      rfl
    | some b =>
      have h : p a = true := by rw [← hp a, hf]; rfl
      rw [h]
      show (b :: t.filterMap f).length = (a :: t.filter p).length
      rw [List.length_cons, List.length_cons,
        length_filterMap_eq_length_filter f p hp t]

/-- C7 is false as stated: the location loop drops rows whose modern
find spot is whitespace-only, which is a present, non-empty string.  On
a one-row collection whose modern find spot is a single space the counts
sum to 0 while one record has a present, non-empty location field. -/
theorem location_counts_sum_cex :
    ((location_counts [⟨none, none, some " ", none, none, none, none⟩]).map
      Prod.snd).sum = 0 ∧
    (([⟨none, none, some " ", none, none, none, none⟩] : List Row).filter
      (fun r => decide (r.modernFindSpot ≠ none) &&
        decide (r.modernFindSpot ≠ some ""))).length = 1 := by
  exact ⟨by decide, by decide⟩

/-- C7 amended: the counts of `location_counts` sum to the number of
records whose modern find spot is present and non-blank (non-empty after
stripping whitespace). -/
theorem location_counts_sum (df : List Row) :
    ((location_counts df).map Prod.snd).sum =
      (df.filter locKeep).length := by
  unfold location_counts
  rw [List.map_map]
  have h : (Prod.snd ∘ fun s => (s, (locationData df).count s)) =
      fun s => (locationData df).count s := rfl
  rw [h, List.sum_map_count_dedup_eq_length]
  exact length_filterMap_eq_length_filter locDisplay locKeep
    isSome_locDisplay df

end LiberalitasEDH
